import Mathlib

/-!
# Verification of the Shop query-state reconciliation engine

A shallow embedding, in Lean 4, of the filter/query state machinery of the
`Shop` component (the draft/applied filter controller with URL persistence,
facet cache and cancellable fetch effects).  Every definition mirrors the
corresponding TypeScript function; JavaScript-host behaviour (string
trimming, `Number` parsing, `Array.prototype.sort`, URL search-parameter
maps) is modelled explicitly:

* strings are Lean `String`s; `trim`, `toLowerCase`, `split(",")` and
  `join(",")` are re-implemented over the underlying character lists so that
  they evaluate inside the kernel;
* the sort comparator `localeCompare` is modelled as lexicographic
  comparison of code points (the two orders agree on the lower-case ASCII
  identifiers this component sorts);
* `[...new Set(xs)]` keeps one representative of each element; since the
  result is always sorted afterwards with an antisymmetric order, the
  position of the kept representative is irrelevant and we use `List.dedup`;
* JavaScript numbers that the component treats as integers are modelled as
  `Int`, with `Number.isSafeInteger`'s 2^53 - 1 bound made explicit; numbers
  that may be fractional (the draft price inputs, in currency units) are
  modelled as `Rat` (the `NaN` input, which `normalizePriceToCents` maps to
  `null`, has no rational representative and is outside the model);
* `Number(raw)` is modelled by a parser for optionally-signed decimal digit
  strings; the JavaScript forms it additionally accepts (fractions,
  exponents, hex) either fail `Number.isSafeInteger` or do not occur on the
  code paths treated here;
* a `URLSearchParams` value is a key-order-preserving association list
  `List (String × String)`; `get` returns the first binding.  Comparing two
  such lists for equality coincides with comparing their serialisations,
  because serialisation percent-escapes the separators and is injective.
-/

namespace Spec2Proof

/-! ## JavaScript string primitives over character lists -/

/-- The whitespace characters relevant to `String.prototype.trim` on the
ASCII inputs in scope. -/
def isWsChar (c : Char) : Bool :=
  c = ' ' || c = '\t' || c = '\n' || c = '\r'

/-- Drop leading and trailing whitespace from a character list. -/
def trimChars (cs : List Char) : List Char :=
  ((cs.dropWhile isWsChar).reverse.dropWhile isWsChar).reverse

/-- Model of `String.prototype.trim`. -/
def jsTrim (s : String) : String := ⟨trimChars s.data⟩

/-- Model of `String.prototype.toLowerCase` on one character (ASCII case
mapping, which covers the identifiers in scope). -/
def jsCharToLower (c : Char) : Char :=
  if 'A' ≤ c ∧ c ≤ 'Z' then Char.ofNat (c.toNat + 32) else c

/-- Model of `String.prototype.toLowerCase`. -/
def jsToLower (s : String) : String := ⟨s.data.map jsCharToLower⟩

/-- Model of `String.prototype.split(",")` on character lists: cut at every
comma; a list with no comma yields one chunk, and `n` commas yield `n + 1`
chunks. -/
def splitCommaChars : List Char → List (List Char)
  | [] => [[]]
  | c :: rest =>
    match splitCommaChars rest with
    | [] => [[]]
    | h :: t => if c = ',' then [] :: h :: t else (c :: h) :: t

/-- Model of `String.prototype.split(",")`. -/
def splitComma (s : String) : List String :=
  (splitCommaChars s.data).map (fun cs => ⟨cs⟩)

/-- Model of `Array.prototype.join(",")` on character lists. -/
def joinCommaChars : List (List Char) → List Char
  | [] => []
  | [h] => h
  | h :: t₁ :: t₂ => h ++ ',' :: joinCommaChars (t₁ :: t₂)

/-- Model of `Array.prototype.join(",")`. -/
def joinComma (l : List String) : String :=
  ⟨joinCommaChars (l.map String.data)⟩

/-! ## JavaScript number primitives -/

/-- `Number.isSafeInteger` on a mathematical integer: magnitude at most
`2 ^ 53 - 1`. -/
def isSafeInteger (n : Int) : Bool := n.natAbs ≤ 9007199254740991

/-- The decimal digit characters. -/
def isDigitChar (c : Char) : Bool := '0' ≤ c && c ≤ '9'

/-- Value of a decimal digit character. -/
def digitVal (c : Char) : Nat := c.toNat - 48

/-- The decimal digit character for a value below ten. -/
def digitChar : Nat → Char
  | 0 => '0' | 1 => '1' | 2 => '2' | 3 => '3' | 4 => '4'
  | 5 => '5' | 6 => '6' | 7 => '7' | 8 => '8' | _ => '9'

/-- Parse a non-empty all-digit character list as a natural number. -/
def parseNatDigits (cs : List Char) : Option Nat :=
  if cs ≠ [] ∧ cs.all isDigitChar then
    some (cs.foldl (fun a c => a * 10 + digitVal c) 0)
  else none

/-- Model of `Number(raw)` restricted to the integral results the component
can accept: an optionally `-`-signed decimal digit string, surrounded by
optional whitespace.  Inputs on which JavaScript's `Number` returns `NaN`,
a fraction, or an exponent-form value are mapped to `none`; the callers
below reject all of those through the `Number.isSafeInteger` guard, so the
outcomes agree.  (`Number("")` is `0`; both callers already rejected empty
and all-blank strings before calling `Number`.) -/
def jsNumber? (s : String) : Option Int :=
  match trimChars s.data with
  | [] => none
  | c :: cs =>
    if c = '-' then (parseNatDigits cs).map (fun m => -(m : Int))
    else (parseNatDigits (c :: cs)).map (fun m => (m : Int))

/-- Big-endian decimal digits of a natural number (`String(n)` for
`n : Nat`). -/
def natToDigits (n : Nat) : List Char :=
  if n = 0 then ['0'] else ((Nat.digits 10 n).map digitChar).reverse

/-- Model of `String(n)` for an integral JavaScript number inside the
safe-integer range (exact decimal digits, with a leading `-` when
negative). -/
def intToString (n : Int) : String :=
  if n < 0 then ⟨'-' :: natToDigits n.natAbs⟩ else ⟨natToDigits n.natAbs⟩

/-! ## The data model (`Shop.tsx`) -/

/-- `type SortKey` — the fixed enumeration of sort keys. -/
inductive SortKey
  | date | priceAsc | priceDesc | name | priceCurrency | priceUpdated
deriving DecidableEq, Repr

/-- `type AppliedFilters` — the canonical query driving the result fetch.
`search` is a trimmed string; prices are integral cents; `page` and
`pageSize` are integral JavaScript numbers. -/
@[ext] structure AppliedFilters where
  search : String
  selectedTags : List String
  selectedAuthorUserIds : List String
  minPriceCents : Option Int
  maxPriceCents : Option Int
  sortBy : SortKey
  page : Int
  pageSize : Int
deriving DecidableEq, Repr

/-- `type PageState` — pagination metadata returned by the server. -/
structure PageState where
  index : Int
  size : Int
  totalItems : Int
  totalPages : Int
  hasPrev : Bool
  hasNext : Bool
deriving DecidableEq, Repr

/-- `DEFAULT_PAGE_STATE`. -/
def DEFAULT_PAGE_STATE : PageState :=
  { index := 1, size := 24, totalItems := 0, totalPages := 0,
    hasPrev := false, hasNext := false }

/-- A product row; fields as in `ShopProduct`, opaque to the state logic. -/
structure ShopProduct where
  id : String
  slug : String
  productName : String
  priceCents : Int
  currency : String
  tags : List String
deriving DecidableEq, Repr

/-- A facet option (`ShopFilterOption`): a tag value and its count. -/
structure ShopFilterOption where
  value : String
  count : Int
deriving DecidableEq, Repr

/-- An author facet option (`ShopFilterOption & { label: string }`). -/
structure AuthorOption where
  value : String
  count : Int
  label : String
deriving DecidableEq, Repr

/-! ## Canonicalizer (`Shop.tsx` lines 60–85, 147–151) -/

/-- The string order used to model `a.localeCompare(b)`: lexicographic
comparison of code points. -/
def strLe (a b : String) : Prop := a.data ≤ b.data

instance : DecidableRel strLe := fun a b => inferInstanceAs (Decidable (a.data ≤ b.data))

instance : IsTotal String strLe := ⟨fun a b => le_total a.data b.data⟩

instance : IsTrans String strLe := ⟨fun _ _ _ h₁ h₂ => le_trans h₁ h₂⟩

instance : IsAntisymm String strLe :=
  ⟨fun a b h₁ h₂ => by cases a; cases b; exact congrArg String.mk (le_antisymm h₁ h₂)⟩

/-- `normalizeTagSelection`: `[...new Set(tags)].sort((a, b) =>
a.localeCompare(b))`. -/
def normalizeTagSelection (tags : List String) : List String :=
  tags.dedup.insertionSort strLe

/-- `normalizeIdSelection`: `[...new Set(values)].sort((a, b) =>
a.localeCompare(b))`. -/
def normalizeIdSelection (values : List String) : List String :=
  values.dedup.insertionSort strLe

/-- `parsePositiveInt(raw, fallback)`: accept only safe integers at least
one, otherwise the fallback.  A missing or empty raw value (`!raw`) is the
fallback. -/
def parsePositiveInt (raw : Option String) (fallback : Int) : Int :=
  match raw with
  | none => fallback
  | some r =>
    if r = "" then fallback
    else
      match jsNumber? r with
      | none => fallback
      | some n => if ¬ isSafeInteger n ∨ n < 1 then fallback else n

/-- `parseNullableNonNegativeInt(raw)`: `null` on missing/blank input,
`null` on unsafe or negative values, otherwise the parsed integer. -/
def parseNullableNonNegativeInt (raw : Option String) : Option Int :=
  match raw with
  | none => none
  | some r =>
    if jsTrim r = "" then none
    else
      match jsNumber? r with
      | none => none
      | some n => if ¬ isSafeInteger n ∨ n < 0 then none else some n

/-- String form of each sort key (the member strings of
`VALID_SORT_KEYS`). -/
def sortKeyToString : SortKey → String
  | .date => "date"
  | .priceAsc => "priceAsc"
  | .priceDesc => "priceDesc"
  | .name => "name"
  | .priceCurrency => "priceCurrency"
  | .priceUpdated => "priceUpdated"

/-- `parseSortKey(raw)`: the default `date` on missing/empty input or any
string outside `VALID_SORT_KEYS`. -/
def parseSortKey (raw : Option String) : SortKey :=
  match raw with
  | none => .date
  | some r =>
    if r = "" then .date
    else if r = "date" then .date
    else if r = "priceAsc" then .priceAsc
    else if r = "priceDesc" then .priceDesc
    else if r = "name" then .name
    else if r = "priceCurrency" then .priceCurrency
    else if r = "priceUpdated" then .priceUpdated
    else .date

/-- `Math.round` for a rational: round half towards positive infinity. -/
def jsRound (q : Rat) : Int := ⌊q + 1 / 2⌋

/-- `normalizePriceToCents(value)`: `null` stays `null`, negative values
clamp to zero cents, otherwise multiply by 100 and round.  (The `NaN`
input, also mapped to `null` by the source, has no rational
representative.) -/
def normalizePriceToCents (value : Option Rat) : Option Int :=
  match value with
  | none => none
  | some v => if v < 0 then some 0 else some (jsRound (v * 100))

/-! ## Query Codec (`Shop.tsx` lines 87–145) -/

/-- `URLSearchParams.get(k)`: the first binding of `k`, if any. -/
def getParam (params : List (String × String)) (k : String) : Option String :=
  match params with
  | [] => none
  | (k', v) :: rest => if k' = k then some v else getParam rest k

/-- `parseAppliedFiltersFromSearchParams(searchParams)`: the total, lenient
decoder from the persisted form to an `AppliedFilters`. -/
def parseAppliedFiltersFromSearchParams (params : List (String × String)) :
    AppliedFilters :=
  let tags :=
    match getParam params "tags" with
    | none => []
    | some raw =>
      if raw = "" then []
      else
        normalizeTagSelection
          (((splitComma raw).map (fun v => jsToLower (jsTrim v))).filter
            (fun v => v ≠ ""))
  let authorUserIds :=
    match getParam params "authors" with
    | none => []
    | some raw =>
      if raw = "" then []
      else
        normalizeIdSelection
          (((splitComma raw).map (fun v => jsTrim v)).filter (fun v => v ≠ ""))
  { search :=
      match getParam params "search" with
      | none => ""
      | some v => jsTrim v
    selectedTags := tags
    selectedAuthorUserIds := authorUserIds
    minPriceCents := parseNullableNonNegativeInt (getParam params "minPriceCents")
    maxPriceCents := parseNullableNonNegativeInt (getParam params "maxPriceCents")
    sortBy := parseSortKey (getParam params "sortBy")
    page := parsePositiveInt (getParam params "page") 1
    pageSize := parsePositiveInt (getParam params "pageSize") 24 }

/-- `buildSearchParamsFromAppliedFilters(filters)`: the minimal encoder,
emitting a key only when its value differs from the documented default, in
the source's key order. -/
def buildSearchParamsFromAppliedFilters (f : AppliedFilters) :
    List (String × String) :=
  (if f.search ≠ "" then [("search", f.search)] else [])
  ++ (if f.selectedTags ≠ [] then [("tags", joinComma f.selectedTags)] else [])
  ++ (if f.selectedAuthorUserIds ≠ [] then
        [("authors", joinComma f.selectedAuthorUserIds)] else [])
  ++ (match f.minPriceCents with
      | some n => [("minPriceCents", intToString n)]
      | none => [])
  ++ (match f.maxPriceCents with
      | some n => [("maxPriceCents", intToString n)]
      | none => [])
  ++ (if f.sortBy ≠ .date then [("sortBy", sortKeyToString f.sortBy)] else [])
  ++ (if f.page ≠ 1 then [("page", intToString f.page)] else [])
  ++ (if f.pageSize ≠ 24 then [("pageSize", intToString f.pageSize)] else [])

/-- `areFiltersEqual(a, b)`: field-wise comparison, comparing the tag and
author lists through their comma-joined strings. -/
def areFiltersEqual (a b : AppliedFilters) : Bool :=
  a.search == b.search
  && joinComma a.selectedTags == joinComma b.selectedTags
  && joinComma a.selectedAuthorUserIds == joinComma b.selectedAuthorUserIds
  && a.minPriceCents == b.minPriceCents
  && a.maxPriceCents == b.maxPriceCents
  && a.sortBy == b.sortBy
  && a.page == b.page
  && a.pageSize == b.pageSize

/-! ## Query State Controller (`Shop.tsx` lines 186–408)

The component state relevant to the claims: the applied query and the draft
fields.  The draft price inputs hold JavaScript numbers in currency units
and are modelled as rationals. -/

structure ShopState where
  applied : AppliedFilters
  draftSearch : String
  draftSelectedTags : List String
  draftSelectedAuthorUserIds : List String
  draftMinPrice : Option Rat
  draftMaxPrice : Option Rat
  draftSortBy : SortKey
  draftPageSize : Int
deriving DecidableEq, Repr

/-- The state seeded from `initialFilters =
parseAppliedFiltersFromSearchParams(searchParams)` (`Shop.tsx` lines
188–215): draft equals applied, and draft prices are cents divided by
100. -/
def initialShopState (params : List (String × String)) : ShopState :=
  let f := parseAppliedFiltersFromSearchParams params
  { applied := f
    draftSearch := f.search
    draftSelectedTags := f.selectedTags
    draftSelectedAuthorUserIds := f.selectedAuthorUserIds
    draftMinPrice := f.minPriceCents.map (fun n => (n : Rat) / 100)
    draftMaxPrice := f.maxPriceCents.map (fun n => (n : Rat) / 100)
    draftSortBy := f.sortBy
    draftPageSize := f.pageSize }

/-- The `searchParams` reconciliation effect (`Shop.tsx` lines 217–227):
on an externally observed persisted-form change, keep the applied query if
the decoded query is `areFiltersEqual` to it (otherwise replace it), and
unconditionally re-seed every draft field from the decoded query. -/
def handleExternalChange (params : List (String × String)) (s : ShopState) :
    ShopState :=
  let fromUrl := parseAppliedFiltersFromSearchParams params
  { applied := if areFiltersEqual s.applied fromUrl then s.applied else fromUrl
    draftSearch := fromUrl.search
    draftSelectedTags := fromUrl.selectedTags
    draftSelectedAuthorUserIds := fromUrl.selectedAuthorUserIds
    draftMinPrice := fromUrl.minPriceCents.map (fun n => (n : Rat) / 100)
    draftMaxPrice := fromUrl.maxPriceCents.map (fun n => (n : Rat) / 100)
    draftSortBy := fromUrl.sortBy
    draftPageSize := fromUrl.pageSize }

/-- The write-back effect (`Shop.tsx` lines 229–235): re-encode the applied
query and write it to the persisted form only when the encoding differs
from the current form (`none` = no `setSearchParams` call). -/
def writeBackParams (s : ShopState) (currentParams : List (String × String)) :
    Option (List (String × String)) :=
  let next := buildSearchParamsFromAppliedFilters s.applied
  if next = currentParams then none else some next

/-- `draftMinPriceCents` (`Shop.tsx` line 317). -/
def draftMinPriceCents (s : ShopState) : Option Int :=
  normalizePriceToCents s.draftMinPrice

/-- `draftMaxPriceCents` (`Shop.tsx` line 318). -/
def draftMaxPriceCents (s : ShopState) : Option Int :=
  normalizePriceToCents s.draftMaxPrice

/-- `hasInvalidPriceRange` (`Shop.tsx` lines 319–322): both draft price
bounds present, in cents, with the minimum exceeding the maximum. -/
def hasInvalidPriceRange (s : ShopState) : Bool :=
  match draftMinPriceCents s, draftMaxPriceCents s with
  | some mn, some mx => decide (mn > mx)
  | _, _ => false

/-- `applyFilters` (`Shop.tsx` lines 368–381): a no-op when the draft price
range is invalid; otherwise install the canonicalized draft as the applied
query with the page forced to 1.  Draft fields are untouched. -/
def applyFilters (s : ShopState) : ShopState :=
  if hasInvalidPriceRange s then s
  else
    { s with
      applied :=
        { search := jsTrim s.draftSearch
          selectedTags := normalizeTagSelection s.draftSelectedTags
          selectedAuthorUserIds := normalizeIdSelection s.draftSelectedAuthorUserIds
          minPriceCents := draftMinPriceCents s
          maxPriceCents := draftMaxPriceCents s
          sortBy := s.draftSortBy
          page := 1
          pageSize := s.draftPageSize } }

/-- `clearFilters` (`Shop.tsx` lines 383–403): reset every draft field and
the applied query to the defaults. -/
def clearFilters (s : ShopState) : ShopState :=
  let _ := s
  { applied :=
      { search := "", selectedTags := [], selectedAuthorUserIds := []
        minPriceCents := none, maxPriceCents := none, sortBy := .date
        page := 1, pageSize := 24 }
    draftSearch := ""
    draftSelectedTags := []
    draftSelectedAuthorUserIds := []
    draftMinPrice := none
    draftMaxPrice := none
    draftSortBy := .date
    draftPageSize := 24 }

/-- `goToPage(page)` (`Shop.tsx` lines 405–408): rejected when the page is
below 1, or when the total page count is known positive and exceeded;
otherwise only the `page` field of the applied query changes.
`totalPages` is the current `pageState.totalPages`. -/
def goToPage (totalPages : Int) (page : Int) (s : ShopState) : ShopState :=
  if page < 1 ∨ (totalPages > 0 ∧ page > totalPages) then s
  else { s with applied := { s.applied with page := page } }

/-! ## Facet Cache (`Shop.tsx` lines 30–31, 153–184, 237–259)

The `sessionStorage` entry under `FILTERS_CACHE_KEY` is modelled as
`none` when the item is absent or its JSON cannot be parsed (both are a
cache miss via the surrounding `try`/`catch`), and otherwise as the pair of
its optional `tags` array (`none` when the field is missing or not an
array) and its optional `expiresAt` number. -/

/-- `FILTERS_CACHE_TTL_MS = 10 * 60 * 1000`. -/
def FILTERS_CACHE_TTL_MS : Int := 10 * 60 * 1000

/-- The parsed state of the facet cache storage entry. -/
abbrev CacheStore : Type := Option (Option (List ShopFilterOption) × Option Int)

/-- `sortTagOptionsByCount(tags)`: descending count, ties by ascending
value. -/
def sortTagOptionsByCount (tags : List ShopFilterOption) : List ShopFilterOption :=
  tags.insertionSort
    (fun a b => b.count < a.count ∨ (a.count = b.count ∧ strLe a.value b.value))

/-- `readCachedTags()`: empty on a miss, an unparsable payload, a missing
or falsy (`0`) `expiresAt`, an expired entry, or a non-array `tags` field;
otherwise the cached tags sorted for display. -/
def readCachedTags (store : CacheStore) (now : Int) : List ShopFilterOption :=
  match store with
  | none => []
  | some (tags?, expiresAt?) =>
    match expiresAt? with
    | none => []
    | some e =>
      if e = 0 ∨ e < now then []
      else
        match tags? with
        | none => []
        | some tags => sortTagOptionsByCount tags

/-- The facet-related component state: the displayed option lists, the
facet loading flag, and the (results) error banner, which the facet path
must never touch. -/
structure FacetsView where
  availableTags : List ShopFilterOption
  availableAuthors : List AuthorOption
  isLoadingFilters : Bool
  error : Option String
deriving DecidableEq, Repr

/-- Facet state plus the cache storage it reads and writes. -/
structure FacetWorld where
  view : FacetsView
  store : CacheStore

/-- Component start-up: `useState<ShopFilterOption[]>(readCachedTags)`
seeds the displayed tags from the cache; authors start empty; no error. -/
def initialFacetWorld (store : CacheStore) (now : Int) : FacetWorld :=
  { view :=
      { availableTags := readCachedTags store now
        availableAuthors := []
        isLoadingFilters := false
        error := none }
    store := store }

/-- The synchronous prefix of the `loadFilters` effect:
`setIsLoadingFilters(true)`. -/
def startLoadFilters (w : FacetWorld) : FacetWorld :=
  { w with view := { w.view with isLoadingFilters := true } }

/-- The payload of a successful `fetchShopFilters` response. -/
structure ShopFiltersResponse where
  tags : List ShopFilterOption
  authors : List AuthorOption

/-- Completion of the `loadFilters` effect.  On success (and not torn
down): display the sorted tags and the authors, and write the sorted tags
through to the cache with the fixed TTL.  On failure: the `catch` block is
empty — the displayed lists, the error banner and the cache are untouched;
only the loading flag is cleared. -/
def completeLoadFilters (cancelled : Bool) (now : Int)
    (outcome : Except String ShopFiltersResponse) (w : FacetWorld) : FacetWorld :=
  match outcome with
  | .ok data =>
    if cancelled then w
    else
      let sorted := sortTagOptionsByCount data.tags
      { view :=
          { w.view with
            availableTags := sorted
            availableAuthors := data.authors
            isLoadingFilters := false }
        store := some (some sorted, some (now + FILTERS_CACHE_TTL_MS)) }
  | .error _ =>
    if cancelled then w
    else { w with view := { w.view with isLoadingFilters := false } }

/-! ## Result fetch protocol (`Shop.tsx` lines 261–301)

Each run of the `loadPage` effect closes over its own `isCancelled`
boolean; the effect's cleanup, which React runs before the next run's body
(and on teardown), sets it.  We record one flag per issued run in issue
order: `issueLoadPage` marks every earlier run cancelled and appends a
live flag for the new run, and `completeLoadPage i` applies an outcome to
the visible state only if run `i` is still live. -/

/-- The result-related component state. -/
structure ResultsView where
  products : List ShopProduct
  pageState : PageState
  isLoading : Bool
  error : Option String
deriving DecidableEq, Repr

/-- Result state plus the cancellation flags of the issued fetch runs
(`slots.get i = some true` means run `i` is cancelled). -/
structure FetchWorld where
  view : ResultsView
  slots : List Bool
deriving DecidableEq, Repr

/-- The payload of a successful `fetchShopProductsPage` response. -/
structure ShopPageResponse where
  data : List ShopProduct
  page : PageState
deriving DecidableEq, Repr

/-- Issue a new result fetch: the previous runs' cleanups have fired
(cancelling them), and the new run synchronously sets `isLoading` and
clears the error before awaiting the response. -/
def issueLoadPage (w : FetchWorld) : FetchWorld :=
  { view := { w.view with isLoading := true, error := none }
    slots := w.slots.map (fun _ => true) ++ [false] }

/-- Completion of result-fetch run `i`: ignored when the run was
cancelled; otherwise a success replaces the products and page state and a
failure sets the error banner, and either clears `isLoading`. -/
def completeLoadPage (i : Nat) (outcome : Except String ShopPageResponse)
    (w : FetchWorld) : FetchWorld :=
  match w.slots[i]? with
  | some false =>
    match outcome with
    | .ok resp =>
      { w with view :=
          { w.view with
            products := resp.data
            pageState := resp.page
            isLoading := false } }
    | .error msg =>
      { w with view := { w.view with error := some msg, isLoading := false } }
  | _ => w

/-! ## Derived predicates and concrete states used by the claims -/

/-- The composite tag canonicalization pipeline the decoder applies to a
raw tag sequence (`Shop.tsx` lines 90–95): trim and lower-case each
element, drop empties, then deduplicate and sort via
`normalizeTagSelection`. -/
def canonicalizeTagSet (tags : List String) : List String :=
  normalizeTagSelection
    ((tags.map (fun v => jsToLower (jsTrim v))).filter (fun v => v ≠ ""))

/-- The cleaned (trimmed, lower-cased, empty-free) image of a raw tag
sequence, before deduplication and sorting. -/
def cleanedTags (tags : List String) : List String :=
  (tags.map (fun v => jsToLower (jsTrim v))).filter (fun v => v ≠ "")

/-- The price-range invariant on an applied query: when both bounds are
present, the minimum does not exceed the maximum. -/
def priceInvariant (f : AppliedFilters) : Prop :=
  ∀ mn mx, f.minPriceCents = some mn → f.maxPriceCents = some mx → mn ≤ mx

/-- The strict form of the model's string order, for stating
sortedness. -/
def strLt (a b : String) : Prop := a.data < b.data

instance : DecidableRel strLt := fun a b => inferInstanceAs (Decidable (a.data < b.data))

/-- A price bound in canonical, codec-safe form: absent, or a non-negative
safe integer. -/
def priceOk (o : Option Int) : Bool :=
  match o with
  | none => true
  | some n => decide (0 ≤ n) && isSafeInteger n

/-- A tag in canonical, codec-safe form: nonempty, trimmed, lower-case and
comma-free. -/
def CanonicalTag (t : String) : Prop :=
  t ≠ "" ∧ jsTrim t = t ∧ jsToLower t = t ∧ ',' ∉ t.data

/-- An author id in canonical, codec-safe form: nonempty, trimmed and
comma-free (case is preserved). -/
def CanonicalId (t : String) : Prop :=
  t ≠ "" ∧ jsTrim t = t ∧ ',' ∉ t.data

/-- A canonical query in the sense of claim C2, sharpened to the
codec-safe forms the comma-joining encoder requires: search trimmed; tags
canonical, strictly sorted (hence deduplicated); author ids canonical,
strictly sorted; price bounds absent or non-negative safe integers; page
and page size positive safe integers. -/
def CanonicalQuery (q : AppliedFilters) : Prop :=
  jsTrim q.search = q.search
  ∧ (∀ t ∈ q.selectedTags, CanonicalTag t)
  ∧ q.selectedTags.Pairwise strLt
  ∧ (∀ t ∈ q.selectedAuthorUserIds, CanonicalId t)
  ∧ q.selectedAuthorUserIds.Pairwise strLt
  ∧ priceOk q.minPriceCents = true
  ∧ priceOk q.maxPriceCents = true
  ∧ 1 ≤ q.page ∧ isSafeInteger q.page = true
  ∧ 1 ≤ q.pageSize ∧ isSafeInteger q.pageSize = true

instance (t : String) : Decidable (CanonicalTag t) := by
  unfold CanonicalTag
  infer_instance

instance (t : String) : Decidable (CanonicalId t) := by
  unfold CanonicalId
  infer_instance

instance (q : AppliedFilters) : Decidable (CanonicalQuery q) := by
  unfold CanonicalQuery
  infer_instance

/-- The default applied query (what an empty persisted form decodes to). -/
def defaultFilters : AppliedFilters :=
  { search := "", selectedTags := [], selectedAuthorUserIds := []
    minPriceCents := none, maxPriceCents := none, sortBy := .date
    page := 1, pageSize := 24 }

/-- C2's counterexample query: canonical in the claim's original sense
(tags lower-case, deduplicated, sorted; all other fields default) but with
a comma inside the single tag. -/
def commaTagQuery : AppliedFilters :=
  { defaultFilters with selectedTags := ["a,b"] }

/-- C2's witness query: canonical and codec-safe in every field. -/
def roundTripWitnessQuery : AppliedFilters :=
  { search := "shoes", selectedTags := ["blue", "red"]
    selectedAuthorUserIds := ["u1"], minPriceCents := some 100
    maxPriceCents := some 500, sortBy := .priceAsc, page := 2, pageSize := 48 }

/-- C3's counterexample state: started from a clean URL, with an uncommitted
draft search edit. -/
def editedDraftState : ShopState :=
  { initialShopState [] with draftSearch := "x" }

/-- C4's counterexample persisted form: a minimum price above the maximum. -/
def invertedPriceParams : List (String × String) :=
  [("minPriceCents", "500"), ("maxPriceCents", "100")]

/-- C6's witness state: draft prices 5 and 2 currency units, an inverted
range. -/
def invalidRangeState : ShopState :=
  { initialShopState [] with draftMinPrice := some 5, draftMaxPrice := some 2 }

/-- C8's witness state: an untrimmed draft search over an applied page of
5. -/
def paddedSearchState : ShopState :=
  { initialShopState [] with
    draftSearch := "  Shoes  "
    applied := { (initialShopState []).applied with page := 5 } }

/-- C10's applied query whose single tag contains a comma. -/
def commaTagApplied : AppliedFilters :=
  { defaultFilters with selectedTags := ["a,b"] }

/-- C10's persisted form, decoding to the two-element tag list. -/
def commaTagParams : List (String × String) := [("tags", "a,b")]

/-! ## Helper lemmas -/

theorem getElem?_append_pair (Q : List Bool) (a b : Bool) :
    (Q ++ [a, b])[Q.length]? = some a ∧ (Q ++ [a, b])[Q.length + 1]? = some b := by
  induction Q with
  | nil => exact ⟨rfl, rfl⟩
  | cons c T ih => simpa using ih

theorem completeLoadPage_slots (i : Nat) (o : Except String ShopPageResponse)
    (w : FetchWorld) : (completeLoadPage i o w).slots = w.slots := by
  unfold completeLoadPage
  split
  · split <;> rfl
  · rfl

theorem issueLoadPage_twice_slots (w0 : FetchWorld) :
    (issueLoadPage (issueLoadPage w0)).slots
      = (w0.slots.map (fun _ => true)).map (fun _ => true) ++ [true, false] := by
  simp [issueLoadPage]

theorem issueLoadPage_twice_view (w0 : FetchWorld) :
    (issueLoadPage (issueLoadPage w0)).view
      = { w0.view with isLoading := true, error := none } := by
  simp [issueLoadPage]

/-! ## Claim C1 -/

/-- C1: for two result fetches issued in order A then B (B supersedes A),
with B's completion arriving first and A's afterwards, A's late completion
— success or failure — is a no-op on the state, and the visible products,
page state and error reflect only B's outcome. -/
theorem staleResponseSuppression (w0 : FetchWorld)
    (outA outB : Except String ShopPageResponse) :
    completeLoadPage w0.slots.length outA
        (completeLoadPage (w0.slots.length + 1) outB (issueLoadPage (issueLoadPage w0)))
      = completeLoadPage (w0.slots.length + 1) outB (issueLoadPage (issueLoadPage w0))
    ∧ (completeLoadPage (w0.slots.length + 1) outB
        (issueLoadPage (issueLoadPage w0))).view
      = match outB with
        | .ok resp =>
          { products := resp.data, pageState := resp.page,
            isLoading := false, error := none }
        | .error msg =>
          { products := w0.view.products, pageState := w0.view.pageState,
            isLoading := false, error := some msg } := by
  have hQ : ((w0.slots.map (fun _ => true)).map (fun _ => true)).length
      = w0.slots.length := by simp
  have hA : (issueLoadPage (issueLoadPage w0)).slots[w0.slots.length]? = some true := by
    rw [issueLoadPage_twice_slots]
    have h := (getElem?_append_pair ((w0.slots.map (fun _ => true)).map (fun _ => true))
      true false).1
    rwa [hQ] at h
  have hB : (issueLoadPage (issueLoadPage w0)).slots[w0.slots.length + 1]? = some false := by
    rw [issueLoadPage_twice_slots]
    have h := (getElem?_append_pair ((w0.slots.map (fun _ => true)).map (fun _ => true))
      true false).2
    rwa [hQ] at h
  have hBview :
      (completeLoadPage (w0.slots.length + 1) outB (issueLoadPage (issueLoadPage w0))).view
        = match outB with
          | .ok resp =>
            { products := resp.data, pageState := resp.page,
              isLoading := false, error := none }
          | .error msg =>
            { products := w0.view.products, pageState := w0.view.pageState,
              isLoading := false, error := some msg } := by
    unfold completeLoadPage
    rw [hB]
    cases outB with
    | ok resp => simp [issueLoadPage_twice_view]
    | error msg => simp [issueLoadPage_twice_view]
  refine ⟨?_, hBview⟩
  set w3 := completeLoadPage (w0.slots.length + 1) outB
      (issueLoadPage (issueLoadPage w0)) with hw3
  have hA3 : w3.slots[w0.slots.length]? = some true := by
    rw [hw3, completeLoadPage_slots]; exact hA
  unfold completeLoadPage
  rw [hA3]

/-! ## Claim C6 -/

/-- C6: when the draft's normalized price bounds are both present and
inverted, committing is a no-op on the whole state (in particular on the
applied query), and the draft-invalid flag is still set afterwards. -/
theorem applyFiltersInvalidRangeNoop (s : ShopState)
    (h : hasInvalidPriceRange s = true) :
    applyFilters s = s ∧ hasInvalidPriceRange (applyFilters s) = true := by
  have h1 : applyFilters s = s := by simp [applyFilters, h]
  exact ⟨h1, by rw [h1]; exact h⟩

theorem jsRound_intCast (z : Int) : jsRound ((z : Rat)) = z := by
  unfold jsRound
  rw [Int.floor_int_add]
  norm_num [Int.floor_eq_zero_iff, Set.mem_Ico]

theorem invalidRangeState_min : draftMinPriceCents invalidRangeState = some 500 := by
  show (if (5 : Rat) < 0 then (some 0 : Option Int) else some (jsRound (5 * 100)))
    = some 500
  rw [if_neg (by norm_num)]
  have h5 : ((5 : Rat) * 100) = ((500 : Int) : Rat) := by norm_num
  rw [h5, jsRound_intCast]

theorem invalidRangeState_max : draftMaxPriceCents invalidRangeState = some 200 := by
  show (if (2 : Rat) < 0 then (some 0 : Option Int) else some (jsRound (2 * 100)))
    = some 200
  rw [if_neg (by norm_num)]
  have h2 : ((2 : Rat) * 100) = ((200 : Int) : Rat) := by norm_num
  rw [h2, jsRound_intCast]

theorem invalidRangeState_flag : hasInvalidPriceRange invalidRangeState = true := by
  unfold hasInvalidPriceRange
  rw [invalidRangeState_min, invalidRangeState_max]
  decide

/-- C6 witness: the draft prices 5 and 2 currency units normalize to the
inverted cents range 500 > 200; committing leaves the state unchanged and
the flag set. -/
theorem applyFiltersInvalidRangeNoopWitness :
    hasInvalidPriceRange invalidRangeState = true
    ∧ applyFilters invalidRangeState = invalidRangeState
    ∧ hasInvalidPriceRange (applyFilters invalidRangeState) = true :=
  ⟨invalidRangeState_flag,
   (applyFiltersInvalidRangeNoop invalidRangeState invalidRangeState_flag).1,
   (applyFiltersInvalidRangeNoop invalidRangeState invalidRangeState_flag).2⟩

/-! ## Claim C7 -/

/-- C7: `goToPage(p)` is a no-op when `p < 1`, and when the total page
count is known positive and exceeded; when the total is zero every
positive page is accepted; and an accepted call changes only the `page`
field of the applied query. -/
theorem goToPageSpec (tp p : Int) (s : ShopState) :
    (p < 1 → goToPage tp p s = s)
    ∧ (0 < tp → tp < p → goToPage tp p s = s)
    ∧ (tp = 0 → 1 ≤ p →
        goToPage tp p s = { s with applied := { s.applied with page := p } })
    ∧ (¬ (p < 1 ∨ (tp > 0 ∧ p > tp)) →
        goToPage tp p s = { s with applied := { s.applied with page := p } }) := by
  refine ⟨?_, ?_, ?_, ?_⟩ <;> intros <;> unfold goToPage
  · rw [if_pos (by omega)]
  · rw [if_pos (by omega)]
  · rw [if_neg (by omega)]
  · rw [if_neg (by omega)]

/-- C7 witness: with 3 total pages, pages 0 and 4 are rejected; with the
total still unknown (0), page 7 is accepted and only the page field
changes. -/
theorem goToPageSpecWitness :
    goToPage 3 0 (initialShopState []) = initialShopState []
    ∧ goToPage 3 4 (initialShopState []) = initialShopState []
    ∧ goToPage 0 7 (initialShopState [])
        = { initialShopState [] with
            applied := { (initialShopState []).applied with page := 7 } } :=
  ⟨(goToPageSpec 3 0 (initialShopState [])).1 (by decide),
   (goToPageSpec 3 4 (initialShopState [])).2.1 (by decide) (by decide),
   (goToPageSpec 0 7 (initialShopState [])).2.2.1 rfl (by decide)⟩

/-! ## Claim C8 -/

/-- C8: committing a valid draft installs the trimmed draft search and
forces the applied page to 1, whatever page was applied before. -/
theorem applyFiltersTrimsAndResetsPage (s : ShopState)
    (h : hasInvalidPriceRange s = false) :
    (applyFilters s).applied.search = jsTrim s.draftSearch
    ∧ (applyFilters s).applied.page = 1 := by
  simp [applyFilters, h]

/-- C8 witness: a draft search of `"  Shoes  "` over an applied page of 5
commits to search `"Shoes"` and page 1. -/
theorem applyFiltersTrimsAndResetsPageWitness :
    hasInvalidPriceRange paddedSearchState = false
    ∧ paddedSearchState.applied.page = 5
    ∧ (applyFilters paddedSearchState).applied.search = "Shoes"
    ∧ (applyFilters paddedSearchState).applied.page = 1 := by
  have h := applyFiltersTrimsAndResetsPage paddedSearchState (by decide)
  refine ⟨by decide, by decide, ?_, h.2⟩
  rw [h.1]
  decide

/-! ## Claim C10 -/

/-- C10: `areFiltersEqual` compares the tag (and author) selections through
their comma-joined strings, so the genuinely different tag lists `["a,b"]`
and `["a", "b"]` compare equal, and the external-change short-circuit
keeps the old applied query when the persisted form decodes to the
other. -/
theorem areFiltersEqualJoinCollision :
    (parseAppliedFiltersFromSearchParams commaTagParams).selectedTags = ["a", "b"]
    ∧ commaTagApplied.selectedTags = ["a,b"]
    ∧ commaTagApplied.selectedTags
        ≠ (parseAppliedFiltersFromSearchParams commaTagParams).selectedTags
    ∧ areFiltersEqual commaTagApplied
        (parseAppliedFiltersFromSearchParams commaTagParams) = true
    ∧ (handleExternalChange commaTagParams
        { initialShopState [] with applied := commaTagApplied }).applied
        = commaTagApplied := by
  decide

/-! ## Claim C3 -/

/-- C3 counterexample: an external persisted-form change that decodes to a
query equal to the current applied query still overwrites the draft — here
an uncommitted draft search `"x"` is reset to `""` — so the handler is not
a no-op on every draft field. -/
theorem externalChangeEqualCounterexample :
    areFiltersEqual editedDraftState.applied
        (parseAppliedFiltersFromSearchParams []) = true
    ∧ editedDraftState.draftSearch = "x"
    ∧ (handleExternalChange [] editedDraftState).applied = editedDraftState.applied
    ∧ (handleExternalChange [] editedDraftState).draftSearch
        ≠ editedDraftState.draftSearch := by
  decide

/-- C3 (amended): when the externally observed persisted form decodes to a
query `areFiltersEqual` to the current applied query, the handler keeps
the applied query unchanged, but unconditionally re-seeds every draft
field from the decoded query; no persisted-form write follows when the
external form is exactly the applied query's minimal encoding. -/
theorem externalChangeEqualKeepsApplied (params : List (String × String))
    (s : ShopState)
    (h : areFiltersEqual s.applied (parseAppliedFiltersFromSearchParams params)
          = true) :
    (handleExternalChange params s).applied = s.applied
    ∧ (handleExternalChange params s).draftSearch
        = (parseAppliedFiltersFromSearchParams params).search
    ∧ (handleExternalChange params s).draftSelectedTags
        = (parseAppliedFiltersFromSearchParams params).selectedTags
    ∧ (handleExternalChange params s).draftSelectedAuthorUserIds
        = (parseAppliedFiltersFromSearchParams params).selectedAuthorUserIds
    ∧ (handleExternalChange params s).draftMinPrice
        = (parseAppliedFiltersFromSearchParams params).minPriceCents.map
            (fun n => (n : Rat) / 100)
    ∧ (handleExternalChange params s).draftMaxPrice
        = (parseAppliedFiltersFromSearchParams params).maxPriceCents.map
            (fun n => (n : Rat) / 100)
    ∧ (handleExternalChange params s).draftSortBy
        = (parseAppliedFiltersFromSearchParams params).sortBy
    ∧ (handleExternalChange params s).draftPageSize
        = (parseAppliedFiltersFromSearchParams params).pageSize
    ∧ (params = buildSearchParamsFromAppliedFilters s.applied →
        writeBackParams (handleExternalChange params s) params = none) := by
  have happ : (handleExternalChange params s).applied = s.applied := by
    simp [handleExternalChange, h]
  refine ⟨happ, rfl, rfl, rfl, rfl, rfl, rfl, rfl, ?_⟩
  intro hp
  unfold writeBackParams
  rw [happ, hp]
  simp

/-- C3 witness: starting from a clean URL, re-observing the same empty
persisted form keeps the applied query unchanged. -/
theorem externalChangeEqualKeepsAppliedWitness :
    areFiltersEqual (initialShopState []).applied
        (parseAppliedFiltersFromSearchParams []) = true
    ∧ (handleExternalChange [] (initialShopState [])).applied
        = (initialShopState []).applied :=
  ⟨by decide,
   (externalChangeEqualKeepsApplied [] (initialShopState []) (by decide)).1⟩

/-! ## Claim C4 -/

/-- C4 counterexample: starting from the clean initial state (whose
applied query satisfies the price invariant), an external persisted-form
change carrying `minPriceCents=500, maxPriceCents=100` installs an applied
query with both bounds present and the minimum above the maximum — the
decode transitions do not enforce the invariant. -/
theorem priceInvariantDecodeCounterexample :
    priceInvariant (initialShopState []).applied
    ∧ (handleExternalChange invertedPriceParams
        (initialShopState [])).applied.minPriceCents = some 500
    ∧ (handleExternalChange invertedPriceParams
        (initialShopState [])).applied.maxPriceCents = some 100
    ∧ ¬ priceInvariant (handleExternalChange invertedPriceParams
        (initialShopState [])).applied := by
  have hmin : (handleExternalChange invertedPriceParams
      (initialShopState [])).applied.minPriceCents = some 500 := by decide
  have hmax : (handleExternalChange invertedPriceParams
      (initialShopState [])).applied.maxPriceCents = some 100 := by decide
  refine ⟨?_, hmin, hmax, ?_⟩
  · intro mn mx hmn hmx
    have h0 : (initialShopState []).applied.minPriceCents = none := by decide
    rw [h0] at hmn
    cases hmn
  · intro hP
    have := hP 500 100 hmin hmax
    omega

/-- C4 (amended): the user-driven transitions — commit, reset and page
navigation — never install an applied query violating the price
invariant (commit surfaces an inverted draft range only as a validation
error and leaves the applied query unchanged); the decode transitions
(initial decode and external persisted-form change), by contrast, install
whatever bounds the persisted form carries, with no correction. -/
theorem priceInvariantUserTransitions (s : ShopState) (tp p : Int)
    (h : priceInvariant s.applied) :
    priceInvariant (applyFilters s).applied
    ∧ priceInvariant (clearFilters s).applied
    ∧ priceInvariant (goToPage tp p s).applied := by
  refine ⟨?_, ?_, ?_⟩
  · by_cases hb : hasInvalidPriceRange s = true
    · simpa [applyFilters, hb] using h
    · have hb' : hasInvalidPriceRange s = false := by
        revert hb; cases hasInvalidPriceRange s <;> simp
      intro mn mx hmn hmx
      simp only [applyFilters, hb', if_false, Bool.false_eq_true] at hmn hmx
      unfold hasInvalidPriceRange at hb'
      rw [hmn, hmx] at hb'
      simp at hb'
      omega
  · intro mn mx hmn hmx
    simp [clearFilters] at hmn
  · intro mn mx hmn hmx
    unfold goToPage at hmn hmx
    by_cases hc : p < 1 ∨ (tp > 0 ∧ p > tp)
    · rw [if_pos hc] at hmn hmx
      exact h mn mx hmn hmx
    · rw [if_neg hc] at hmn hmx
      exact h mn mx hmn hmx

/-- C4 witness: the clean initial state satisfies the invariant, and so
does the result of committing its (empty) draft. -/
theorem priceInvariantUserTransitionsWitness :
    priceInvariant (initialShopState []).applied
    ∧ priceInvariant (applyFilters (initialShopState [])).applied := by
  have h : priceInvariant (initialShopState []).applied := by
    intro mn mx hmn hmx
    have h0 : (initialShopState []).applied.minPriceCents = none := by decide
    rw [h0] at hmn
    cases hmn
  exact ⟨h, (priceInvariantUserTransitions (initialShopState []) 0 1 h).1⟩

/-! ## Claim C5 -/

theorem normalizeTagSelection_eq_of_mem_iff (l1 l2 : List String)
    (h : ∀ a, a ∈ l1 ↔ a ∈ l2) :
    normalizeTagSelection l1 = normalizeTagSelection l2 := by
  unfold normalizeTagSelection
  have hperm : l1.dedup.Perm l2.dedup :=
    (List.perm_ext_iff_of_nodup (List.nodup_dedup l1) (List.nodup_dedup l2)).mpr
      (fun a => by simp [List.mem_dedup, h a])
  exact List.eq_of_perm_of_sorted
    (((List.perm_insertionSort strLe l1.dedup).trans hperm).trans
      (List.perm_insertionSort strLe l2.dedup).symm)
    (List.sorted_insertionSort strLe l1.dedup)
    (List.sorted_insertionSort strLe l2.dedup)

/-- C5: two raw tag sequences whose cleaned (trimmed, lower-cased,
empty-dropped) elements form the same set canonicalize to identical
lists. -/
theorem canonicalizeTagSetWellDefined (t1 t2 : List String)
    (h : (cleanedTags t1).toFinset = (cleanedTags t2).toFinset) :
    canonicalizeTagSet t1 = canonicalizeTagSet t2 := by
  have h' : ∀ a, a ∈ cleanedTags t1 ↔ a ∈ cleanedTags t2 := by
    intro a
    rw [← List.mem_toFinset, h, List.mem_toFinset]
  exact normalizeTagSelection_eq_of_mem_iff (cleanedTags t1) (cleanedTags t2) h'

/-- C5 witness: `[" B ", "a", "a"]` and `["b", "A"]` denote the same set
case-insensitively and canonicalize identically. -/
theorem canonicalizeTagSetWellDefinedWitness :
    (cleanedTags [" B ", "a", "a"]).toFinset = (cleanedTags ["b", "A"]).toFinset
    ∧ canonicalizeTagSet [" B ", "a", "a"] = canonicalizeTagSet ["b", "A"] :=
  ⟨by decide, canonicalizeTagSetWellDefined [" B ", "a", "a"] ["b", "A"] (by decide)⟩

/-! ## Claim C9 -/

/-- C9: when the displayed tag list was seeded from a non-empty,
non-expired facet-cache entry, a facet-fetch failure leaves it unchanged
and non-empty, sets no error, and leaves the cache entry intact. -/
theorem facetFailurePreservesCachedTags (cancelled : Bool)
    (tags : List ShopFilterOption) (e now now2 : Int) (err : String)
    (h1 : tags ≠ []) (h2 : e ≠ 0) (h3 : ¬ e < now) :
    (completeLoadFilters cancelled now2 (.error err)
        (startLoadFilters (initialFacetWorld (some (some tags, some e)) now))).view.availableTags
      = (initialFacetWorld (some (some tags, some e)) now).view.availableTags
    ∧ (completeLoadFilters cancelled now2 (.error err)
        (startLoadFilters (initialFacetWorld (some (some tags, some e)) now))).view.availableTags
      ≠ []
    ∧ (completeLoadFilters cancelled now2 (.error err)
        (startLoadFilters (initialFacetWorld (some (some tags, some e)) now))).view.error
      = none
    ∧ (completeLoadFilters cancelled now2 (.error err)
        (startLoadFilters (initialFacetWorld (some (some tags, some e)) now))).store
      = some (some tags, some e) := by
  have hne : ¬ (e = 0 ∨ e < now) := not_or.mpr ⟨h2, h3⟩
  have hread : readCachedTags (some (some tags, some e)) now
      = sortTagOptionsByCount tags := by
    simp [readCachedTags, hne]
  have hlen : sortTagOptionsByCount tags ≠ [] := by
    intro hnil
    have hl : (sortTagOptionsByCount tags).length = tags.length :=
      (List.perm_insertionSort _ tags).length_eq
    rw [hnil] at hl
    exact h1 (List.length_eq_zero.mp hl.symm)
  cases cancelled <;>
    simp [completeLoadFilters, startLoadFilters, initialFacetWorld, hread, hlen]

/-- C9 witness: a cached entry of one tag with expiry 99 read at time 10
survives a failed facet fetch at time 20 untouched. -/
theorem facetFailurePreservesCachedTagsWitness :
    ((⟨"red", 3⟩ : ShopFilterOption) :: []) ≠ []
    ∧ (99 : Int) ≠ 0
    ∧ ¬ (99 : Int) < 10
    ∧ (completeLoadFilters false 20 (.error "network")
        (startLoadFilters (initialFacetWorld (some (some [⟨"red", 3⟩], some 99)) 10))).view.availableTags
      = (initialFacetWorld (some (some [⟨"red", 3⟩], some 99)) 10).view.availableTags
    ∧ (completeLoadFilters false 20 (.error "network")
        (startLoadFilters (initialFacetWorld (some (some [⟨"red", 3⟩], some 99)) 10))).view.availableTags
      ≠ []
    ∧ (completeLoadFilters false 20 (.error "network")
        (startLoadFilters (initialFacetWorld (some (some [⟨"red", 3⟩], some 99)) 10))).view.error
      = none :=
  ⟨by decide, by decide, by decide,
   (facetFailurePreservesCachedTags false [⟨"red", 3⟩] 99 10 20 "network"
     (by decide) (by decide) (by decide)).1,
   (facetFailurePreservesCachedTags false [⟨"red", 3⟩] 99 10 20 "network"
     (by decide) (by decide) (by decide)).2.1,
   (facetFailurePreservesCachedTags false [⟨"red", 3⟩] 99 10 20 "network"
     (by decide) (by decide) (by decide)).2.2.1⟩

/-! ## Claim C2 — codec machinery

Extraction of each key from the minimal encoder's output. -/

theorem getParam_append (l₁ l₂ : List (String × String)) (k : String) :
    getParam (l₁ ++ l₂) k = (getParam l₁ k).or (getParam l₂ k) := by
  induction l₁ with
  | nil => simp [getParam]
  | cons p rest ih =>
    obtain ⟨k', v⟩ := p
    by_cases hk : k' = k <;> simp [getParam, hk, ih]

theorem getParam_ite_nil_singleton (c : Prop) [Decidable c] (k' v k : String) :
    getParam (if c then [] else [(k', v)]) k
      = if k' = k then (if c then none else some v) else none := by
  by_cases hc : c <;> by_cases hk : k' = k <;> simp [getParam, hc, hk]

theorem getParam_opt_singleton (o : Option Int) (g : Int → String) (k' k : String) :
    getParam (match o with | some n => [(k', g n)] | none => []) k
      = if k' = k then o.map g else none := by
  cases o <;> by_cases hk : k' = k <;> simp [getParam, hk]

theorem getParam_build_search (f : AppliedFilters) :
    getParam (buildSearchParamsFromAppliedFilters f) "search"
      = if f.search ≠ "" then some f.search else none := by
  simp [buildSearchParamsFromAppliedFilters, getParam_append, getParam_ite_nil_singleton,
    getParam_opt_singleton]

theorem getParam_build_tags (f : AppliedFilters) :
    getParam (buildSearchParamsFromAppliedFilters f) "tags"
      = if f.selectedTags ≠ [] then some (joinComma f.selectedTags) else none := by
  simp [buildSearchParamsFromAppliedFilters, getParam_append, getParam_ite_nil_singleton,
    getParam_opt_singleton]

theorem getParam_build_authors (f : AppliedFilters) :
    getParam (buildSearchParamsFromAppliedFilters f) "authors"
      = if f.selectedAuthorUserIds ≠ [] then some (joinComma f.selectedAuthorUserIds)
        else none := by
  simp [buildSearchParamsFromAppliedFilters, getParam_append, getParam_ite_nil_singleton,
    getParam_opt_singleton]

theorem getParam_build_min (f : AppliedFilters) :
    getParam (buildSearchParamsFromAppliedFilters f) "minPriceCents"
      = f.minPriceCents.map intToString := by
  simp [buildSearchParamsFromAppliedFilters, getParam_append, getParam_ite_nil_singleton,
    getParam_opt_singleton]

theorem getParam_build_max (f : AppliedFilters) :
    getParam (buildSearchParamsFromAppliedFilters f) "maxPriceCents"
      = f.maxPriceCents.map intToString := by
  simp [buildSearchParamsFromAppliedFilters, getParam_append, getParam_ite_nil_singleton,
    getParam_opt_singleton]

theorem getParam_build_sortBy (f : AppliedFilters) :
    getParam (buildSearchParamsFromAppliedFilters f) "sortBy"
      = if f.sortBy ≠ .date then some (sortKeyToString f.sortBy) else none := by
  simp [buildSearchParamsFromAppliedFilters, getParam_append, getParam_ite_nil_singleton,
    getParam_opt_singleton]

theorem getParam_build_page (f : AppliedFilters) :
    getParam (buildSearchParamsFromAppliedFilters f) "page"
      = if f.page ≠ 1 then some (intToString f.page) else none := by
  simp [buildSearchParamsFromAppliedFilters, getParam_append, getParam_ite_nil_singleton,
    getParam_opt_singleton]

theorem getParam_build_pageSize (f : AppliedFilters) :
    getParam (buildSearchParamsFromAppliedFilters f) "pageSize"
      = if f.pageSize ≠ 24 then some (intToString f.pageSize) else none := by
  simp [buildSearchParamsFromAppliedFilters, getParam_append, getParam_ite_nil_singleton,
    getParam_opt_singleton]

/-! Splitting a comma-join recovers the parts when none contains a
comma. -/

theorem splitCommaChars_cons (c : Char) (rest : List Char) :
    splitCommaChars (c :: rest)
      = match splitCommaChars rest with
        | [] => [[]]
        | h :: t => if c = ',' then [] :: h :: t else (c :: h) :: t := rfl

theorem splitCommaChars_ne_nil (cs : List Char) : splitCommaChars cs ≠ [] := by
  induction cs with
  | nil => simp [splitCommaChars]
  | cons c rest ih =>
    rw [splitCommaChars_cons]
    cases h : splitCommaChars rest with
    | nil => simp
    | cons hh tt => by_cases hc : c = ',' <;> simp [hc]

theorem splitCommaChars_no_comma (cs : List Char) (h : ',' ∉ cs) :
    splitCommaChars cs = [cs] := by
  induction cs with
  | nil => rfl
  | cons c rest ih =>
    have hc : c ≠ ',' := fun he => h (he ▸ List.mem_cons_self c rest)
    have hr : ',' ∉ rest := fun hm => h (List.mem_cons_of_mem _ hm)
    rw [splitCommaChars_cons, ih hr]
    simp [hc]

theorem splitCommaChars_append_comma (h rest : List Char) (hh : ',' ∉ h) :
    splitCommaChars (h ++ ',' :: rest) = h :: splitCommaChars rest := by
  induction h with
  | nil =>
    show splitCommaChars (',' :: rest) = [] :: splitCommaChars rest
    rw [splitCommaChars_cons]
    cases hsr : splitCommaChars rest with
    | nil => exact absurd hsr (splitCommaChars_ne_nil rest)
    | cons a b => simp
  | cons c t ih =>
    have hc : c ≠ ',' := fun he => hh (he ▸ List.mem_cons_self c t)
    have ht : ',' ∉ t := fun hm => hh (List.mem_cons_of_mem _ hm)
    show splitCommaChars (c :: (t ++ ',' :: rest)) = (c :: t) :: splitCommaChars rest
    rw [splitCommaChars_cons, ih ht]
    simp [hc]

theorem splitCommaChars_joinCommaChars (parts : List (List Char)) (hne : parts ≠ [])
    (hcf : ∀ p ∈ parts, ',' ∉ p) :
    splitCommaChars (joinCommaChars parts) = parts := by
  induction parts with
  | nil => exact absurd rfl hne
  | cons h t ih =>
    cases t with
    | nil => exact splitCommaChars_no_comma h (hcf h (List.mem_cons_self h []))
    | cons t1 t2 =>
      show splitCommaChars (h ++ ',' :: joinCommaChars (t1 :: t2)) = h :: t1 :: t2
      rw [splitCommaChars_append_comma h _ (hcf h (List.mem_cons_self h _))]
      rw [ih (by simp) (fun p hp => hcf p (List.mem_cons_of_mem _ hp))]

theorem splitComma_joinComma (l : List String) (hne : l ≠ [])
    (hcf : ∀ t ∈ l, ',' ∉ t.data) :
    splitComma (joinComma l) = l := by
  unfold splitComma joinComma
  have hmapne : l.map String.data ≠ [] := by simpa using hne
  have hmapcf : ∀ p ∈ l.map String.data, ',' ∉ p := by
    intro p hp
    obtain ⟨t, ht, rfl⟩ := List.mem_map.mp hp
    exact hcf t ht
  show (splitCommaChars (joinCommaChars (l.map String.data))).map
      (fun cs => (⟨cs⟩ : String)) = l
  rw [splitCommaChars_joinCommaChars (l.map String.data) hmapne hmapcf]
  rw [List.map_map]
  have hid : ((fun cs => (⟨cs⟩ : String)) ∘ String.data) = id := by
    funext s
    cases s
    rfl
  rw [hid, List.map_id]

theorem String_ne_empty_iff (s : String) : s ≠ "" ↔ s.data ≠ [] := by
  cases s
  simp [String.ext_iff]

theorem joinComma_ne_empty (l : List String) (h0 : l ≠ []) (h1 : ∀ t ∈ l, t ≠ "") :
    joinComma l ≠ "" := by
  cases l with
  | nil => exact absurd rfl h0
  | cons h t =>
    have hh : h.data ≠ [] :=
      (String_ne_empty_iff h).mp (h1 h (List.mem_cons_self h t))
    rw [String_ne_empty_iff]
    cases t with
    | nil => simpa [joinComma, joinCommaChars] using hh
    | cons t1 t2 =>
      show joinCommaChars (h.data :: (t1 :: t2).map String.data) ≠ []
      unfold joinCommaChars
      simp [hh]

/-! Printing a safe integer and parsing it back is the identity. -/

theorem digitVal_digitChar (d : Nat) (h : d < 10) : digitVal (digitChar d) = d := by
  interval_cases d <;> rfl

theorem isDigitChar_digitChar (d : Nat) (h : d < 10) :
    isDigitChar (digitChar d) = true := by
  interval_cases d <;> rfl

theorem not_ws_of_digit (c : Char) (h : isDigitChar c = true) : isWsChar c = false := by
  unfold isDigitChar at h
  simp only [Bool.and_eq_true, decide_eq_true_eq] at h
  obtain ⟨hl, hr⟩ := h
  have h1 : c ≠ ' ' := fun he => by subst he; exact absurd hl (by decide)
  have h2 : c ≠ '\t' := fun he => by subst he; exact absurd hl (by decide)
  have h3 : c ≠ '\n' := fun he => by subst he; exact absurd hl (by decide)
  have h4 : c ≠ '\r' := fun he => by subst he; exact absurd hl (by decide)
  unfold isWsChar
  simp [h1, h2, h3, h4]

theorem natToDigits_all_digits (m : Nat) :
    ∀ c ∈ natToDigits m, isDigitChar c = true := by
  intro c hc
  unfold natToDigits at hc
  by_cases hm : m = 0
  · rw [if_pos hm] at hc
    simp at hc
    rw [hc]
    rfl
  · rw [if_neg hm] at hc
    rw [List.mem_reverse, List.mem_map] at hc
    obtain ⟨d, hd, rfl⟩ := hc
    exact isDigitChar_digitChar d (Nat.digits_lt_base (by norm_num) hd)

theorem natToDigits_ne_nil (m : Nat) : natToDigits m ≠ [] := by
  unfold natToDigits
  by_cases hm : m = 0
  · rw [if_pos hm]
    simp
  · rw [if_neg hm]
    simp [Nat.digits_ne_nil_iff_ne_zero.mpr hm]

theorem foldl_digitChar_digits (L : List Nat) (hL : ∀ d ∈ L, d < 10) :
    ∀ a : Nat, ((L.map digitChar).reverse).foldl (fun x c => x * 10 + digitVal c) a
      = a * 10 ^ L.length + Nat.ofDigits 10 L := by
  induction L with
  | nil => intro a; simp [Nat.ofDigits_nil]
  | cons d T ih =>
    intro a
    have hd : d < 10 := hL d (List.mem_cons_self d T)
    have hT : ∀ x ∈ T, x < 10 := fun x hx => hL x (List.mem_cons_of_mem _ hx)
    rw [List.map_cons, List.reverse_cons, List.foldl_append, ih hT a]
    simp only [List.foldl_cons, List.foldl_nil]
    rw [digitVal_digitChar d hd, Nat.ofDigits_cons, List.length_cons, pow_succ]
    ring

theorem parseNatDigits_natToDigits (m : Nat) :
    parseNatDigits (natToDigits m) = some m := by
  by_cases hm : m = 0
  · subst hm
    decide
  · unfold parseNatDigits
    have hall : (natToDigits m).all isDigitChar = true := by
      rw [List.all_eq_true]
      intro c hc
      exact natToDigits_all_digits m c hc
    rw [if_pos ⟨natToDigits_ne_nil m, hall⟩]
    have hstep : natToDigits m = ((Nat.digits 10 m).map digitChar).reverse := by
      unfold natToDigits
      rw [if_neg hm]
    rw [hstep,
      foldl_digitChar_digits (Nat.digits 10 m)
        (fun d hd => Nat.digits_lt_base (by norm_num) hd) 0]
    simp [Nat.ofDigits_digits]

theorem trimChars_of_no_ws (cs : List Char) (h : ∀ c ∈ cs, isWsChar c = false) :
    trimChars cs = cs := by
  have hdw : ∀ (l : List Char), (∀ c ∈ l, isWsChar c = false) →
      l.dropWhile isWsChar = l := by
    intro l hl
    cases l with
    | nil => rfl
    | cons c t => simp [List.dropWhile_cons, hl c (List.mem_cons_self c t)]
  unfold trimChars
  rw [hdw cs h]
  rw [hdw cs.reverse (fun c hc => h c (List.mem_reverse.mp hc))]
  exact List.reverse_reverse cs

theorem jsNumber?_intToString (n : Int) (h0 : 0 ≤ n) :
    jsNumber? (intToString n) = some n := by
  unfold jsNumber? intToString
  rw [if_neg (by omega)]
  have hnw : ∀ c ∈ natToDigits n.natAbs, isWsChar c = false :=
    fun c hc => not_ws_of_digit c (natToDigits_all_digits _ c hc)
  show (match trimChars (natToDigits n.natAbs) with
    | [] => none
    | c :: cs =>
      if c = '-' then (parseNatDigits cs).map (fun m => -(m : Int))
      else (parseNatDigits (c :: cs)).map (fun m => (m : Int))) = some n
  rw [trimChars_of_no_ws _ hnw]
  cases hd : natToDigits n.natAbs with
  | nil => exact absurd hd (natToDigits_ne_nil _)
  | cons c cs =>
    have hdig : isDigitChar c = true :=
      natToDigits_all_digits _ c (hd ▸ List.mem_cons_self c cs)
    have hc : ¬ c = '-' := by
      intro he
      rw [he] at hdig
      exact absurd hdig (by decide)
    show (if c = '-' then (parseNatDigits cs).map (fun m => -(m : Int))
      else (parseNatDigits (c :: cs)).map (fun m => (m : Int))) = some n
    rw [if_neg hc, ← hd, parseNatDigits_natToDigits]
    simp [Int.natAbs_of_nonneg h0]

theorem intToString_ne_empty (n : Int) (h0 : 0 ≤ n) : intToString n ≠ "" := by
  unfold intToString
  rw [if_neg (by omega)]
  rw [String_ne_empty_iff]
  exact natToDigits_ne_nil n.natAbs

theorem jsTrim_intToString_ne_empty (n : Int) (h0 : 0 ≤ n) :
    jsTrim (intToString n) ≠ "" := by
  unfold jsTrim intToString
  rw [if_neg (by omega)]
  show (⟨trimChars (natToDigits n.natAbs)⟩ : String) ≠ ""
  rw [trimChars_of_no_ws _
    (fun c hc => not_ws_of_digit c (natToDigits_all_digits _ c hc))]
  rw [String_ne_empty_iff]
  exact natToDigits_ne_nil n.natAbs

theorem parseNullableNonNegativeInt_intToString (n : Int) (h0 : 0 ≤ n)
    (hs : isSafeInteger n = true) :
    parseNullableNonNegativeInt (some (intToString n)) = some n := by
  show (if jsTrim (intToString n) = "" then none
    else
      match jsNumber? (intToString n) with
      | none => none
      | some m => if ¬ isSafeInteger m = true ∨ m < 0 then none else some m) = some n
  rw [if_neg (jsTrim_intToString_ne_empty n h0), jsNumber?_intToString n h0]
  show (if ¬ isSafeInteger n = true ∨ n < 0 then none else some n) = some n
  rw [if_neg (by simp [hs]; omega)]

theorem parsePositiveInt_intToString (n fallback : Int) (h1 : 1 ≤ n)
    (hs : isSafeInteger n = true) :
    parsePositiveInt (some (intToString n)) fallback = n := by
  show (if intToString n = "" then fallback
    else
      match jsNumber? (intToString n) with
      | none => fallback
      | some m => if ¬ isSafeInteger m = true ∨ m < 1 then fallback else m) = n
  rw [if_neg (intToString_ne_empty n (by omega)), jsNumber?_intToString n (by omega)]
  show (if ¬ isSafeInteger n = true ∨ n < 1 then fallback else n) = n
  rw [if_neg (by simp [hs]; omega)]

/-! ## Claim C2 -/

theorem map_fix {α : Type} (l : List α) (f : α → α) (h : ∀ a ∈ l, f a = a) :
    l.map f = l := by
  induction l with
  | nil => rfl
  | cons a t ih =>
    rw [List.map_cons, h a (List.mem_cons_self a t),
      ih (fun b hb => h b (List.mem_cons_of_mem _ hb))]

theorem normalizeTagSelection_eq_self (l : List String) (hs : l.Pairwise strLt) :
    normalizeTagSelection l = l := by
  unfold normalizeTagSelection
  have hnd : l.Nodup := hs.imp (fun {a b} hab => by
    intro he
    subst he
    exact lt_irrefl _ hab)
  rw [List.dedup_eq_self.mpr hnd]
  exact List.Sorted.insertionSort_eq (hs.imp (fun {a b} hab => le_of_lt hab))

theorem normalizeIdSelection_eq_self (l : List String) (hs : l.Pairwise strLt) :
    normalizeIdSelection l = l :=
  normalizeTagSelection_eq_self l hs

theorem parseSortKey_sortKeyToString (k : SortKey) (hk : k ≠ .date) :
    parseSortKey (some (sortKeyToString k)) = k := by
  cases k <;> first | exact absurd rfl hk | rfl

/-- C2 counterexample: the query whose only tag is `"a,b"` is canonical in
the claim's stated sense (tag trimmed, lower-case, deduplicated, sorted;
every other field default), yet decoding its encoding splits the tag at
the comma and yields a different query. -/
theorem decodeEncodeRoundTripCounterexample :
    commaTagQuery.selectedTags = ["a,b"]
    ∧ jsTrim "a,b" = "a,b"
    ∧ jsToLower "a,b" = "a,b"
    ∧ commaTagQuery.selectedTags.Pairwise strLt
    ∧ parseAppliedFiltersFromSearchParams
        (buildSearchParamsFromAppliedFilters commaTagQuery)
      = { commaTagQuery with selectedTags := ["a", "b"] }
    ∧ parseAppliedFiltersFromSearchParams
        (buildSearchParamsFromAppliedFilters commaTagQuery)
      ≠ commaTagQuery := by
  decide

/-- C2 (amended): decoding the encoding is the identity on every canonical
query whose tags and author ids are additionally nonempty, trimmed and
comma-free, and whose numeric fields lie in the safe-integer range — the
conditions `CanonicalQuery` spells out. -/
theorem decodeEncodeRoundTrip (q : AppliedFilters) (h : CanonicalQuery q) :
    parseAppliedFiltersFromSearchParams (buildSearchParamsFromAppliedFilters q)
      = q := by
  obtain ⟨hsearch, htag, htags, hid, hids, hmin, hmax, hp1, hps, hz1, hzs⟩ := h
  apply AppliedFilters.ext
  · show (match getParam (buildSearchParamsFromAppliedFilters q) "search" with
      | none => ""
      | some v => jsTrim v) = q.search
    rw [getParam_build_search]
    by_cases hqs : q.search = ""
    · simp [hqs]
    · rw [if_pos hqs]
      exact hsearch
  · show (match getParam (buildSearchParamsFromAppliedFilters q) "tags" with
      | none => []
      | some raw =>
        if raw = "" then []
        else
          normalizeTagSelection
            (((splitComma raw).map (fun v => jsToLower (jsTrim v))).filter
              (fun v => v ≠ ""))) = q.selectedTags
    rw [getParam_build_tags]
    by_cases hqt : q.selectedTags = []
    · simp [hqt]
    · rw [if_pos hqt]
      have hne : ∀ t ∈ q.selectedTags, t ≠ "" := fun t ht => (htag t ht).1
      show (if joinComma q.selectedTags = "" then []
        else
          normalizeTagSelection
            (((splitComma (joinComma q.selectedTags)).map
              (fun v => jsToLower (jsTrim v))).filter (fun v => v ≠ "")))
        = q.selectedTags
      rw [if_neg (joinComma_ne_empty _ hqt hne)]
      rw [splitComma_joinComma _ hqt (fun t ht => (htag t ht).2.2.2)]
      rw [map_fix _ _ (fun t ht => by rw [(htag t ht).2.1, (htag t ht).2.2.1])]
      rw [List.filter_eq_self.mpr (fun a ha => by simp [hne a ha])]
      exact normalizeTagSelection_eq_self _ htags
  · show (match getParam (buildSearchParamsFromAppliedFilters q) "authors" with
      | none => []
      | some raw =>
        if raw = "" then []
        else
          normalizeIdSelection
            (((splitComma raw).map (fun v => jsTrim v)).filter (fun v => v ≠ "")))
      = q.selectedAuthorUserIds
    rw [getParam_build_authors]
    by_cases hqt : q.selectedAuthorUserIds = []
    · simp [hqt]
    · rw [if_pos hqt]
      have hne : ∀ t ∈ q.selectedAuthorUserIds, t ≠ "" := fun t ht => (hid t ht).1
      show (if joinComma q.selectedAuthorUserIds = "" then []
        else
          normalizeIdSelection
            (((splitComma (joinComma q.selectedAuthorUserIds)).map
              (fun v => jsTrim v)).filter (fun v => v ≠ "")))
        = q.selectedAuthorUserIds
      rw [if_neg (joinComma_ne_empty _ hqt hne)]
      rw [splitComma_joinComma _ hqt (fun t ht => (hid t ht).2.2)]
      rw [map_fix _ _ (fun t ht => (hid t ht).2.1)]
      rw [List.filter_eq_self.mpr (fun a ha => by simp [hne a ha])]
      exact normalizeIdSelection_eq_self _ hids
  · show parseNullableNonNegativeInt
        (getParam (buildSearchParamsFromAppliedFilters q) "minPriceCents")
      = q.minPriceCents
    rw [getParam_build_min]
    cases hq : q.minPriceCents with
    | none => rfl
    | some n =>
      rw [hq] at hmin
      unfold priceOk at hmin
      simp only [Bool.and_eq_true, decide_eq_true_eq] at hmin
      rw [Option.map_some']
      exact parseNullableNonNegativeInt_intToString n hmin.1 hmin.2
  · show parseNullableNonNegativeInt
        (getParam (buildSearchParamsFromAppliedFilters q) "maxPriceCents")
      = q.maxPriceCents
    rw [getParam_build_max]
    cases hq : q.maxPriceCents with
    | none => rfl
    | some n =>
      rw [hq] at hmax
      unfold priceOk at hmax
      simp only [Bool.and_eq_true, decide_eq_true_eq] at hmax
      rw [Option.map_some']
      exact parseNullableNonNegativeInt_intToString n hmax.1 hmax.2
  · show parseSortKey (getParam (buildSearchParamsFromAppliedFilters q) "sortBy")
      = q.sortBy
    rw [getParam_build_sortBy]
    by_cases hqs : q.sortBy = .date
    · simp [hqs, parseSortKey]
    · rw [if_pos hqs]
      exact parseSortKey_sortKeyToString q.sortBy hqs
  · show parsePositiveInt (getParam (buildSearchParamsFromAppliedFilters q) "page") 1
      = q.page
    rw [getParam_build_page]
    by_cases hq1 : q.page = 1
    · simp [hq1, parsePositiveInt]
    · rw [if_pos hq1]
      exact parsePositiveInt_intToString q.page 1 hp1 hps
  · show parsePositiveInt
        (getParam (buildSearchParamsFromAppliedFilters q) "pageSize") 24
      = q.pageSize
    rw [getParam_build_pageSize]
    by_cases hq24 : q.pageSize = 24
    · simp [hq24, parsePositiveInt]
    · rw [if_pos hq24]
      exact parsePositiveInt_intToString q.pageSize 24 hz1 hzs

/-- C2 witness: a fully canonical, codec-safe query with every field away
from its default round-trips exactly. -/
theorem decodeEncodeRoundTripWitness :
    CanonicalQuery roundTripWitnessQuery
    ∧ parseAppliedFiltersFromSearchParams
        (buildSearchParamsFromAppliedFilters roundTripWitnessQuery)
      = roundTripWitnessQuery :=
  ⟨by decide, decodeEncodeRoundTrip roundTripWitnessQuery (by decide)⟩

end Spec2Proof
